import Mathlib

/-!
Verification development for the CardConvert asset-conversion pipeline.

The Python sources embedded here are:
  * `CardConvert/cards/base.py` — the `BasicCard` class: the directory
    crawler, the per-stage command builders and stage runners;
  * `CardConvert/exceptions.py` — the `CardConvertError` hierarchy;
  * `CardConvert/util.py` — the multiprocessing dispatcher `execute_pool`.

External effects are made explicit: the filesystem walk (`os.walk`) is a
list of directory entries given as input, `run_cmd` (a subprocess call) is
an oracle function `String → RunResult`, raised exceptions become `Except`,
and a Python `KeyError`/`IndexError` on a missing dict key or empty list
becomes an outer `Option`.
-/

namespace CardConvert

/-! ## Path utilities (os.path) -/

/-- Model of `os.path.join(dir, name)` for a relative `name` (file names
coming from `os.walk` and basenames never start with a separator). -/
def joinPath (d f : String) : String := d ++ "/" ++ f

/-- Index of the last occurrence of `c` in `l` (Python `str.rfind`,
`none` instead of `-1`). -/
def rfindIdx (c : Char) : List Char → Option Nat
  | [] => none
  | a :: as =>
    match rfindIdx c as with
    | some i => some (i + 1)
    | none => if a = c then some 0 else none

/-- Model of `os.path.basename`: the part after the last `/`. -/
def basenameChars (l : List Char) : List Char :=
  match rfindIdx '/' l with
  | none => l
  | some i => l.drop (i + 1)

/-- Model of `os.path.basename` on strings. -/
def basenameStr (s : String) : String :=
  String.mk (basenameChars s.data)

/-- Model of CPython `posixpath.splitext` on the character list: split at
the last `.` that lies after the last `/` and is not part of a leading run
of dots of the basename. -/
def splitextChars (l : List Char) : List Char × List Char :=
  let sepIndex : Int := match rfindIdx '/' l with | some i => (i : Int) | none => -1
  let dotIndex : Int := match rfindIdx '.' l with | some i => (i : Int) | none => -1
  if sepIndex < dotIndex ∧
      (List.range l.length).any
        (fun j => decide (sepIndex < (j : Int)) && decide ((j : Int) < dotIndex) &&
          (l.getD j '.' != '.')) then
    (l.take dotIndex.toNat, l.drop dotIndex.toNat)
  else (l, [])

/-- Model of `os.path.splitext` on strings. -/
def splitext (s : String) : String × String :=
  let p := splitextChars s.data
  (String.mk p.1, String.mk p.2)

/-- Model of `re.match('^\.', file_)`: the file name starts with a dot. -/
def hidden (f : String) : Bool :=
  match f.data with
  | c :: _ => c = '.'
  | [] => false

/-! ## Sorting (Python `sorted` on strings) -/

/-- Lexicographic order on character lists, by code point — the order
Python `sorted` uses on strings. -/
def lexLe : List Char → List Char → Bool
  | [], _ => true
  | _ :: _, [] => false
  | a :: as, b :: bs => if a < b then true else if a = b then lexLe as bs else false

/-- Lexicographic order on strings. -/
def strLe (a b : String) : Bool := lexLe a.data b.data

/-- Insert a string into an already sorted list keeping the order
(ascending lexicographic, as Python `sorted`). -/
def insSorted (f : String) : List String → List String
  | [] => [f]
  | g :: gs => if strLe f g then f :: g :: gs else g :: insSorted f gs

/-- Model of Python `sorted` on a list of strings. -/
def sortFiles (fs : List String) : List String :=
  fs.foldr insSorted []

/-! ## Discovery: `BasicCard.crawler` (base.py lines 67-104)

The filesystem is made explicit: `os.walk(target_dir)` is modelled as the
list of `(path, files)` pairs it yields, in visit order, and
`os.path.isdir(target_dir)` as a boolean input.  The configuration value
`frame_re` enters only through `re.split(frame_re, header)[0]`, modelled
as the function parameter `frameSplit`. -/

/-- One asset bundle: `{'static': path, 'animated': [frames]}`.  `static`
is an `Option` because a Python dict may lack the key; the crawler always
sets it when it creates a bundle. -/
structure Bundle where
  static : Option String
  animated : List String
deriving Repr, DecidableEq

/-- One step of `os.walk`: the directory's path and the plain files in it. -/
structure DirEntry where
  path : String
  files : List String
deriving Repr, DecidableEq

/-- The `cards` dict built by the crawler, as an association list keyed by
bundle base name. -/
abbrev Cards := List (String × Bundle)

/-- Python dict lookup `d[k]` as an option, for string-keyed dicts. -/
def lookupCard {β : Type} (d : List (String × β)) (k : String) : Option β :=
  match d with
  | [] => none
  | (k', v) :: rest => if k' = k then some v else lookupCard rest k

/-- The update `cards[header]['animated'].append(fullpath)`. -/
def appendFrame (cards : Cards) (k : String) (p : String) : Cards :=
  cards.map fun kb =>
    if kb.1 = k then (kb.1, { kb.2 with animated := kb.2.animated ++ [p] }) else kb

/-- The `if not animated` loop of `crawler`: each non-hidden file whose
extension-stripped name is not yet a key creates a bundle with that file
as `static` and an empty `animated` list. -/
def crawlStatic (dirPath : String) (cards : Cards) : List String → Cards
  | [] => cards
  | f :: fs =>
    let cards' :=
      if hidden f then cards
      else
        let fullpath := joinPath dirPath f
        let header := (splitext f).1
        if (lookupCard cards header).isSome then cards
        else cards ++ [(header, ⟨some fullpath, []⟩)]
    crawlStatic dirPath cards' fs

/-- The `if animated` loop of `crawler`: each non-hidden file's
extension-stripped name is split on `frame_re` and the first segment is
the key; the full path is appended to that bundle's `animated` list only
when the key already exists. -/
def crawlAnim (frameSplit : String → String) (dirPath : String)
    (cards : Cards) : List String → Cards
  | [] => cards
  | f :: fs =>
    let cards' :=
      if hidden f then cards
      else
        let fullpath := joinPath dirPath f
        let header := frameSplit (splitext f).1
        if (lookupCard cards header).isSome then appendFrame cards header fullpath
        else cards
    crawlAnim frameSplit dirPath cards' fs

/-- One iteration of the `for path, subdir, files in os.walk(...)` loop:
the directory is an animation directory iff its basename equals
`anim_folder`; files are visited in sorted order. -/
def crawlEntry (frameSplit : String → String) (animFolder : String)
    (cards : Cards) (e : DirEntry) : Cards :=
  if basenameStr e.path = animFolder then
    crawlAnim frameSplit e.path cards (sortFiles e.files)
  else
    crawlStatic e.path cards (sortFiles e.files)

/-- `BasicCard.crawler(target_dir, frame_re, anim_folder)`: fold the walk
over an initially empty dict; a non-directory (missing) target yields the
empty dict. -/
def crawler (isdir : Bool) (walk : List DirEntry)
    (frameSplit : String → String) (animFolder : String) : Cards :=
  if isdir then walk.foldl (crawlEntry frameSplit animFolder) [] else []

/-! ## A concrete frame-splitting pattern

The `frame_re` value comes from configuration (for frame names such as
`A_0001.png` a pattern matching an underscore followed by digits).  The
two regex operations the source applies to it are instantiated here for
the pattern `_\d+`, for use in concrete test cases. -/

/-- First segment of `re.split('_\d+', s)`: the prefix of `s` before the
first underscore that is immediately followed by a digit. -/
def splitUnderscoreDigits (s : String) : String :=
  String.mk (go s.data)
where
  go : List Char → List Char
    | [] => []
    | a :: as =>
      match as with
      | b :: _ => if a = '_' ∧ b.isDigit then [] else a :: go as
      | [] => [a]

/-- Character-level scanner for `re.sub('_\d+', repl, s)`: when `skipping`
is true the scanner is inside the digit run of a match and consumes
digits; a `_` immediately followed by a digit starts a match, emitting
`repl` once. -/
def subUDChars (repl : List Char) : Bool → List Char → List Char
  | _, [] => []
  | skipping, a :: as =>
    if skipping && a.isDigit then subUDChars repl true as
    else
      match as with
      | b :: _ =>
        if a = '_' && b.isDigit then repl ++ subUDChars repl true as
        else a :: subUDChars repl false as
      | [] => [a]

/-- The substitution `re.sub('_\d+', repl, s)`: every maximal occurrence
of an underscore followed by one or more digits is replaced by `repl`. -/
def subUnderscoreDigits (repl : String) (s : String) : String :=
  String.mk (subUDChars repl.data false s.data)

/-! ## Errors (exceptions.py) and external commands

`CardConvertError.__init__(value, return_code, stdout, stderr)` stores the
command string, the process exit code and the captured output; each stage
has its own subclass, modelled by the `kind` field. -/

/-- The concrete `CardConvertError` subclass raised by a stage. -/
inductive ErrKind
  | mediumCopy | smallCopy | jpgCopy | smallIcon | mediumIcon | largeIcon
  | animatedPNG | animatedGIF | mp4 | webm | composite
deriving Repr, DecidableEq

/-- A raised `CardConvertError`: subclass, command string (`value`), exit
code and captured stdout/stderr. -/
structure CardConvertError where
  kind : ErrKind
  value : String
  return_code : Int
  stdout : String
  stderr : String
deriving Repr, DecidableEq

/-- The triple returned by `BasicCard.run_cmd`: process return code,
stdout and stderr.  The subprocess itself is external; a stage receives
its behaviour as an oracle `String → RunResult`. -/
structure RunResult where
  return_code : Int
  stdout : String
  stderr : String
deriving Repr, DecidableEq

/-! ## Card state and the pipeline stages (base.py)

`self._info` is modelled explicitly; `self.config` enters the stages only
through `re.sub(frame_re, ...)`, modelled as the parameter `reSub` (the
replacement string stays in the code, so `reSub` takes it as its first
argument). -/

/-- The `_info` dict of a `BasicCard`, with the keys the stages read. -/
structure CardInfo where
  static : String
  animated : List String
  output_paths : List (String × String)
  ff_out : List String
deriving Repr, DecidableEq

/-- `BasicCard._get_input_output(output_type)`: the static file is the
input; the output is the file's basename inside the directory registered
for the output type.  `none` models the `KeyError` on a missing
`output_paths` entry. -/
def get_input_output (info : CardInfo) (output_type : String) : Option (String × String) :=
  match lookupCard info.output_paths output_type with
  | none => none
  | some dir => some (info.static, joinPath dir (basenameStr info.static))

/-- `BasicCard._make_medium_copy_cmd`. -/
def make_medium_copy_cmd (input_ output : String) : String :=
  "convert " ++ input_ ++ " -filter lanczos -resize 200x303 -unsharp 1.5x1+0.7+0.02 " ++ output

/-- `BasicCard._make_small_copy_cmd`. -/
def make_small_copy_cmd (input_ output : String) : String :=
  "convert " ++ input_ ++ " -filter lanczos -resize 123x186 -unsharp 1.5x1+0.7+0.02 " ++ output

/-- `BasicCard._make_jpg_copy_cmd` (the `%%` of the Python format string
renders as one `%`). -/
def make_jpg_copy_cmd (input_ output : String) : String :=
  "convert " ++ input_ ++
    " -background \"#242424\" -layers flatten -filter lanczos -resize 200x303 +repage -gravity south -crop 200x302+0+0 +repage -unsharp 1.5x1+0.7+0.02 -quality 85% " ++
    output

/-- `BasicCard._make_small_icons_cmd`. -/
def make_small_icons_cmd (input_ output : String) : String :=
  "convert " ++ input_ ++ " -filter lanczos -resize 11x16 -unsharp 1.5x1+0.7+0.02 " ++ output

/-- `BasicCard._make_medium_icons_cmd`. -/
def make_medium_icons_cmd (input_ output : String) : String :=
  "convert " ++ input_ ++ " -filter lanczos -resize 30x44 -unsharp 1.5x1+0.7+0.02 " ++ output

/-- `BasicCard._make_large_icons_cmd`. -/
def make_large_icons_cmd (input_ output : String) : String :=
  "convert " ++ input_ ++ " -filter lanczos -resize 40x60 -unsharp 1.5x1+0.7+0.02 " ++ output

/-- `BasicCard._make_animated_png_cmd`: `apngasm <output> ` followed by
every frame, each with a trailing space. -/
def make_animated_png_cmd (info : CardInfo) (output : String) : String :=
  info.animated.foldl (fun cmd f => cmd ++ f ++ " ") ("apngasm " ++ output ++ " ")

/-- `BasicCard._make_animated_gif_cmd`. -/
def make_animated_gif_cmd (input_ output : String) : String :=
  "apng2gif " ++ input_ ++ " " ++ output

/-- `BasicCard._make_mp4_cmd`. -/
def make_mp4_cmd (input_ output : String) : String :=
  "ffmpeg -f image2 -framerate 11 -i " ++ input_ ++
    " -profile:v baseline -level 3.0 -pix_fmt yuv420p " ++ output

/-- `BasicCard._make_webm_cmd` (the Python format string has two spaces
between the input and the output). -/
def make_webm_cmd (input_ output : String) : String :=
  "ffmpeg -f image2 -framerate 11 -i " ++ input_ ++ "  " ++ output

/-- `BasicCard._make_medium_copy`: build the command, run it, raise
`MakeMediumCopyError(cmd, return_code, stdout, stderr)` on non-zero exit,
return the run result otherwise. -/
def make_medium_copy (runCmd : String → RunResult) (info : CardInfo) :
    Option (Except CardConvertError RunResult) :=
  match get_input_output info "medium" with
  | none => none
  | some (input_, output) =>
    let cmd := make_medium_copy_cmd input_ output
    let r := runCmd cmd
    if r.return_code ≠ 0 then
      some (.error ⟨.mediumCopy, cmd, r.return_code, r.stdout, r.stderr⟩)
    else some (.ok r)

/-- `BasicCard._make_small_copy`. -/
def make_small_copy (runCmd : String → RunResult) (info : CardInfo) :
    Option (Except CardConvertError RunResult) :=
  match get_input_output info "small" with
  | none => none
  | some (input_, output) =>
    let cmd := make_small_copy_cmd input_ output
    let r := runCmd cmd
    if r.return_code ≠ 0 then
      some (.error ⟨.smallCopy, cmd, r.return_code, r.stdout, r.stderr⟩)
    else some (.ok r)

/-- `BasicCard._make_jpg_copy`: the output extension is replaced by
`.jpg` before the command is built. -/
def make_jpg_copy (runCmd : String → RunResult) (info : CardInfo) :
    Option (Except CardConvertError RunResult) :=
  match get_input_output info "mediumj" with
  | none => none
  | some (input_, output0) =>
    let output := (splitext output0).1 ++ ".jpg"
    let cmd := make_jpg_copy_cmd input_ output
    let r := runCmd cmd
    if r.return_code ≠ 0 then
      some (.error ⟨.jpgCopy, cmd, r.return_code, r.stdout, r.stderr⟩)
    else some (.ok r)

/-- `BasicCard._make_small_icons`. -/
def make_small_icons (runCmd : String → RunResult) (info : CardInfo) :
    Option (Except CardConvertError RunResult) :=
  match get_input_output info "icons/small" with
  | none => none
  | some (input_, output) =>
    let cmd := make_small_icons_cmd input_ output
    let r := runCmd cmd
    if r.return_code ≠ 0 then
      some (.error ⟨.smallIcon, cmd, r.return_code, r.stdout, r.stderr⟩)
    else some (.ok r)

/-- `BasicCard._make_medium_icons`. -/
def make_medium_icons (runCmd : String → RunResult) (info : CardInfo) :
    Option (Except CardConvertError RunResult) :=
  match get_input_output info "icons/medium" with
  | none => none
  | some (input_, output) =>
    let cmd := make_medium_icons_cmd input_ output
    let r := runCmd cmd
    if r.return_code ≠ 0 then
      some (.error ⟨.mediumIcon, cmd, r.return_code, r.stdout, r.stderr⟩)
    else some (.ok r)

/-- `BasicCard._make_large_icons`. -/
def make_large_icons (runCmd : String → RunResult) (info : CardInfo) :
    Option (Except CardConvertError RunResult) :=
  match get_input_output info "icons/large" with
  | none => none
  | some (input_, output) =>
    let cmd := make_large_icons_cmd input_ output
    let r := runCmd cmd
    if r.return_code ≠ 0 then
      some (.error ⟨.largeIcon, cmd, r.return_code, r.stdout, r.stderr⟩)
    else some (.ok r)

/-- `BasicCard._make_animated_png`: runs only when the bundle has frames
(`ok none` models the Python `None` return of the print branch). -/
def make_animated_png (runCmd : String → RunResult) (info : CardInfo) :
    Option (Except CardConvertError (Option RunResult)) :=
  if info.animated ≠ [] then
    match get_input_output info "animated" with
    | none => none
    | some (_, output) =>
      let cmd := make_animated_png_cmd info output
      let r := runCmd cmd
      if r.return_code ≠ 0 then
        some (.error ⟨.animatedPNG, cmd, r.return_code, r.stdout, r.stderr⟩)
      else some (.ok (some r))
  else some (.ok none)

/-- `BasicCard._make_animated_gif`: the assembled animated png (the
`animated` output path) is the converter's input; the output swaps the
extension to `.gif`; on zero exit the input png is removed
(`os.remove`) — the second component lists the files removed, and on
non-zero exit the error is raised before any removal. -/
def make_animated_gif (runCmd : String → RunResult) (info : CardInfo) :
    Option (Except CardConvertError (RunResult × List String)) :=
  match get_input_output info "animated" with
  | none => none
  | some (_, output0) =>
    let input_ := output0
    let output := (splitext output0).1 ++ ".gif"
    let cmd := make_animated_gif_cmd input_ output
    let r := runCmd cmd
    if r.return_code ≠ 0 then
      some (.error ⟨.animatedGIF, cmd, r.return_code, r.stdout, r.stderr⟩)
    else some (.ok (r, [input_]))

/-- `BasicCard._web_format_prep(fext)`: take the first `ff_out` frame
path, substitute `frame_re` by the literal `_%04d` in its
extension-stripped name (`reSub "_%04d"` models
`re.sub(frame_re, '_%04d', header)`), re-attach the extension; the output
is the `animated` output path with its extension swapped to `fext`.
`none` models the `IndexError`/`KeyError` on an empty `ff_out` or a
missing output path. -/
def web_format_prep (reSub : String → String → String) (info : CardInfo)
    (fext : String) : Option (String × String) :=
  match info.ff_out with
  | [] => none
  | f0 :: _ =>
    let p := splitext f0
    let header := reSub "_%04d" p.1
    let this_input := header ++ p.2
    match get_input_output info "animated" with
    | none => none
    | some (_, output0) =>
      some (this_input, (splitext output0).1 ++ "." ++ fext)

/-- `BasicCard._make_mp4`. -/
def make_mp4 (runCmd : String → RunResult) (reSub : String → String → String)
    (info : CardInfo) : Option (Except CardConvertError RunResult) :=
  match web_format_prep reSub info "mp4" with
  | none => none
  | some (input_, output) =>
    let cmd := make_mp4_cmd input_ output
    let r := runCmd cmd
    if r.return_code ≠ 0 then
      some (.error ⟨.mp4, cmd, r.return_code, r.stdout, r.stderr⟩)
    else some (.ok r)

/-- `BasicCard._make_webm`. -/
def make_webm (runCmd : String → RunResult) (reSub : String → String → String)
    (info : CardInfo) : Option (Except CardConvertError RunResult) :=
  match web_format_prep reSub info "webm" with
  | none => none
  | some (input_, output) =>
    let cmd := make_webm_cmd input_ output
    let r := runCmd cmd
    if r.return_code ≠ 0 then
      some (.error ⟨.webm, cmd, r.return_code, r.stdout, r.stderr⟩)
    else some (.ok r)

/-! ## Dispatcher: `execute_pool` (util.py lines 89-107)

`pool.apply_async` runs `_execute_pool` (which just calls
`instance.process(output_path)`) in a worker; the pool machinery captures
a raised exception inside the returned future, so each submitted unit
yields an `Except`.  The collection `[p.get() for p in results]` walks
the futures in submission order, and `get()` re-raises a captured
exception. -/

/-- The collection loop `[p.get() for p in results]`: take each future's
outcome in submission order; the first captured exception is re-raised. -/
def poolGetAll : List (Except CardConvertError String) → Except CardConvertError (List String)
  | [] => .ok []
  | r :: rs =>
    match r with
    | .error e => .error e
    | .ok s =>
      match poolGetAll rs with
      | .error e => .error e
      | .ok ss => .ok (s :: ss)

/-- `execute_pool`: submit one unit per instance (every unit runs in the
pool regardless of the others), then collect the futures in submission
order. -/
def execute_pool {α : Type} (process : α → Except CardConvertError String)
    (instances : List α) : Except CardConvertError (List String) :=
  poolGetAll (instances.map process)

/-! ## Auxiliary definitions used by the claim statements -/

/-- A path names a non-hidden file listed by some directory of the walk. -/
def pathFromWalk (walk : List DirEntry) (p : String) : Prop :=
  ∃ e, e ∈ walk ∧ ∃ f, f ∈ e.files ∧ hidden f = false ∧ p = joinPath e.path f

/-- The contract of one tool-invoking stage whose command resolved to
`cmd` and whose run result is `r`: a zero exit returns the stage's normal
value, and the stage yields an error exactly when the exit status is
non-zero, the error carrying the command string, the exit code and the
captured stdout/stderr. -/
def stageSpec {β : Type} (result : Option (Except CardConvertError β))
    (k : ErrKind) (cmd : String) (r : RunResult) (v : β) : Prop :=
  (r.return_code = 0 → result = some (Except.ok v)) ∧
  ∀ e, result = some (Except.error e) ↔
    (r.return_code ≠ 0 ∧ e = ⟨k, cmd, r.return_code, r.stdout, r.stderr⟩)

/-- Modelled from the spec: the concrete card-variant modules
(`cards/cards.py`, `cards/heroes.py`, `cards/cardbacks.py`) that populate
`_info['ff_out']` before the web encodes run are not among the sources;
§4.3(c) of the specification states that the web encodes read the raw
frame sequence — the original per-frame filenames — so `ff_out` is
modelled as holding exactly the bundle's animated frame paths. -/
def ff_out_is_original_frames (info : CardInfo) : Prop :=
  info.ff_out = info.animated

/-- A concrete card state exercising every output type. -/
def infoW : CardInfo :=
  ⟨"in/A.png", ["in/anim/A_0001.png"],
    [("medium", "out/medium"), ("small", "out/small"), ("mediumj", "out/mediumj"),
     ("icons/small", "out/icons/small"), ("icons/medium", "out/icons/medium"),
     ("icons/large", "out/icons/large"), ("animated", "out/animated")],
    ["in/anim/A_0001.png"]⟩

/-- An external-tool oracle whose every invocation fails with exit code 1. -/
def runCmdFail : String → RunResult := fun _ => ⟨1, "sout", "serr"⟩

/-- An external-tool oracle whose every invocation succeeds. -/
def runCmdOk : String → RunResult := fun _ => ⟨0, "", ""⟩

/-- A concrete stage error. -/
def errCex : CardConvertError := ⟨.mediumCopy, "convert a b", 1, "", "fail"⟩

/-- A per-card pipeline outcome where exactly `card1` fails. -/
def procCex : String → Except CardConvertError String :=
  fun name => if name = "card1" then .error errCex
    else .ok ("Finished processing " ++ name)

/-- A per-card pipeline outcome where every card succeeds. -/
def procOkW : String → Except CardConvertError String :=
  fun name => .ok ("Finished processing " ++ name)

/-! ## Crawler lemma toolkit -/

theorem mem_insSorted {g f : String} {l : List String} :
    g ∈ insSorted f l ↔ g = f ∨ g ∈ l := by
  induction l with
  | nil => simp [insSorted]
  | cons a as ih =>
    simp only [insSorted]
    split
    · simp
    · simp only [List.mem_cons, ih]
      tauto

theorem mem_sortFiles {f : String} {fs : List String} :
    f ∈ sortFiles fs ↔ f ∈ fs := by
  induction fs with
  | nil => simp [sortFiles]
  | cons a as ih =>
    have h : sortFiles (a :: as) = insSorted a (sortFiles as) := rfl
    rw [h, mem_insSorted, ih, List.mem_cons]

theorem appendFrame_cons (k0 : String) (b0 : Bundle) (rest : Cards) (k p : String) :
    appendFrame ((k0, b0) :: rest) k p =
      (if k0 = k then (k0, { b0 with animated := b0.animated ++ [p] }) else (k0, b0)) ::
        appendFrame rest k p := by
  simp only [appendFrame, List.map_cons]

theorem lookupCard_appendFrame (cards : Cards) (k p k' : String) :
    lookupCard (appendFrame cards k p) k' =
      (lookupCard cards k').map
        (fun b => if k' = k then { b with animated := b.animated ++ [p] } else b) := by
  induction cards with
  | nil => simp [appendFrame, lookupCard]
  | cons kb rest ih =>
    obtain ⟨k0, b0⟩ := kb
    rw [appendFrame_cons]
    by_cases hk : k0 = k
    · rw [if_pos hk]
      by_cases hk' : k0 = k'
      · subst hk'
        simp [lookupCard, hk]
      · simp [lookupCard, hk', ih]
    · rw [if_neg hk]
      by_cases hk' : k0 = k'
      · subst hk'
        have hne : ¬ k0 = k := hk
        simp [lookupCard, hne]
      · simp [lookupCard, hk', ih]

theorem lookupCard_append_of_some {cards : Cards} {k : String} {b : Bundle}
    (kb : String × Bundle) (h : lookupCard cards k = some b) :
    lookupCard (cards ++ [kb]) k = some b := by
  induction cards with
  | nil => simp [lookupCard] at h
  | cons kb0 rest ih =>
    obtain ⟨k0, b0⟩ := kb0
    by_cases hk : k0 = k
    · simp only [lookupCard, if_pos hk] at h ⊢
      exact h
    · simp only [lookupCard, if_neg hk] at h ⊢
      exact ih h

theorem lookupCard_append_of_none {cards : Cards} {k : String}
    (kb : String × Bundle) (h : lookupCard cards k = none) :
    lookupCard (cards ++ [kb]) k = if kb.1 = k then some kb.2 else none := by
  induction cards with
  | nil => simp [lookupCard]
  | cons kb0 rest ih =>
    obtain ⟨k0, b0⟩ := kb0
    by_cases hk : k0 = k
    · simp only [lookupCard, if_pos hk] at h
      cases h
    · simp only [lookupCard, if_neg hk] at h ⊢
      exact ih h

theorem crawlStatic_preserve (d : String) (fs : List String) :
    ∀ cards k b, lookupCard cards k = some b →
      lookupCard (crawlStatic d cards fs) k = some b := by
  induction fs with
  | nil => intro _ _ _ h; simpa [crawlStatic] using h
  | cons f fs ih =>
    intro cards k b h
    simp only [crawlStatic]
    apply ih
    by_cases hf : hidden f
    · rw [if_pos hf]
      exact h
    · rw [if_neg hf]
      by_cases hs : (lookupCard cards ((splitext f).1)).isSome
      · rw [if_pos hs]
        exact h
      · rw [if_neg hs]
        exact lookupCard_append_of_some _ h

theorem crawlStatic_lookup_src (d : String) (fs : List String) :
    ∀ cards k b, lookupCard (crawlStatic d cards fs) k = some b →
      lookupCard cards k = some b ∨
        ∃ f, f ∈ fs ∧ hidden f = false ∧ (splitext f).1 = k ∧
          b = ⟨some (joinPath d f), []⟩ := by
  induction fs with
  | nil =>
    intro cards k b h
    left
    simpa [crawlStatic] using h
  | cons f fs ih =>
    intro cards k b h
    simp only [crawlStatic] at h
    rcases ih _ _ _ h with h' | ⟨g, hg, hgh, hgk, hgb⟩
    · by_cases hf : hidden f
      · rw [if_pos hf] at h'
        left
        exact h'
      · rw [if_neg hf] at h'
        by_cases hs : (lookupCard cards ((splitext f).1)).isSome
        · rw [if_pos hs] at h'
          left
          exact h'
        · rw [if_neg hs] at h'
          cases hc : lookupCard cards k with
          | some b0 =>
            left
            rw [lookupCard_append_of_some _ hc] at h'
            exact h'
          | none =>
            rw [lookupCard_append_of_none _ hc] at h'
            by_cases hfk : (splitext f).1 = k
            · rw [if_pos hfk] at h'
              right
              refine ⟨f, List.mem_cons_self f fs, ?_, hfk, ?_⟩
              · simpa using hf
              · cases h'
                rfl
            · rw [if_neg hfk] at h'
              cases h'
    · right
      exact ⟨g, List.mem_cons_of_mem f hg, hgh, hgk, hgb⟩

theorem crawlAnim_grow (fsplit : String → String) (d : String) (fs : List String) :
    ∀ cards k b, lookupCard cards k = some b →
      ∃ ext, lookupCard (crawlAnim fsplit d cards fs) k =
          some ⟨b.static, b.animated ++ ext⟩ ∧
        ∀ p ∈ ext, ∃ f, f ∈ fs ∧ hidden f = false ∧ p = joinPath d f := by
  induction fs with
  | nil =>
    intro cards k b h
    refine ⟨[], ?_, by simp⟩
    simpa [crawlAnim] using h
  | cons f fs ih =>
    intro cards k b h
    simp only [crawlAnim]
    by_cases hf : hidden f
    · rw [if_pos hf]
      rcases ih cards k b h with ⟨ext, h1, h2⟩
      refine ⟨ext, h1, fun p hp => ?_⟩
      rcases h2 p hp with ⟨g, hg, hgh, hgp⟩
      exact ⟨g, List.mem_cons_of_mem f hg, hgh, hgp⟩
    · rw [if_neg hf]
      by_cases hs : (lookupCard cards (fsplit (splitext f).1)).isSome
      · rw [if_pos hs]
        by_cases hk : k = fsplit (splitext f).1
        · have hstep : lookupCard (appendFrame cards (fsplit (splitext f).1) (joinPath d f)) k =
              some ⟨b.static, b.animated ++ [joinPath d f]⟩ := by
            rw [lookupCard_appendFrame, h]
            simp [hk]
          rcases ih _ _ _ hstep with ⟨ext, h1, h2⟩
          refine ⟨joinPath d f :: ext, ?_, fun p hp => ?_⟩
          · simpa [List.append_assoc] using h1
          · rcases List.mem_cons.mp hp with hp | hp
            · exact ⟨f, List.mem_cons_self f fs, by simpa using hf, hp⟩
            · rcases h2 p hp with ⟨g, hg, hgh, hgp⟩
              exact ⟨g, List.mem_cons_of_mem f hg, hgh, hgp⟩
        · have hstep : lookupCard (appendFrame cards (fsplit (splitext f).1) (joinPath d f)) k =
              some b := by
            rw [lookupCard_appendFrame, h]
            simp [hk]
          rcases ih _ _ _ hstep with ⟨ext, h1, h2⟩
          refine ⟨ext, h1, fun p hp => ?_⟩
          rcases h2 p hp with ⟨g, hg, hgh, hgp⟩
          exact ⟨g, List.mem_cons_of_mem f hg, hgh, hgp⟩
      · rw [if_neg hs]
        rcases ih cards k b h with ⟨ext, h1, h2⟩
        refine ⟨ext, h1, fun p hp => ?_⟩
        rcases h2 p hp with ⟨g, hg, hgh, hgp⟩
        exact ⟨g, List.mem_cons_of_mem f hg, hgh, hgp⟩

theorem crawlAnim_lookup_src (fsplit : String → String) (d : String) (fs : List String) :
    ∀ cards k b', lookupCard (crawlAnim fsplit d cards fs) k = some b' →
      ∃ b ext, lookupCard cards k = some b ∧ b' = ⟨b.static, b.animated ++ ext⟩ ∧
        ∀ p ∈ ext, ∃ f, f ∈ fs ∧ hidden f = false ∧ p = joinPath d f := by
  induction fs with
  | nil =>
    intro cards k b' h
    refine ⟨b', [], by simpa [crawlAnim] using h, by simp, by simp⟩
  | cons f fs ih =>
    intro cards k b' h
    simp only [crawlAnim] at h
    by_cases hf : hidden f
    · rw [if_pos hf] at h
      rcases ih _ _ _ h with ⟨b, ext, h1, h2, h3⟩
      refine ⟨b, ext, h1, h2, fun p hp => ?_⟩
      rcases h3 p hp with ⟨g, hg, hgh, hgp⟩
      exact ⟨g, List.mem_cons_of_mem f hg, hgh, hgp⟩
    · rw [if_neg hf] at h
      by_cases hs : (lookupCard cards (fsplit (splitext f).1)).isSome
      · rw [if_pos hs] at h
        rcases ih _ _ _ h with ⟨b1, ext, h1, h2, h3⟩
        rw [lookupCard_appendFrame] at h1
        obtain ⟨b0, hc⟩ : ∃ b0, lookupCard cards k = some b0 := by
          cases hx : lookupCard cards k with
          | none => rw [hx] at h1; cases h1
          | some b0 => exact ⟨b0, rfl⟩
        rw [hc] at h1
        have h1' : (if k = fsplit (splitext f).1
            then { b0 with animated := b0.animated ++ [joinPath d f] } else b0) = b1 := by
          simpa using h1
        by_cases hk : k = fsplit (splitext f).1
        · rw [if_pos hk] at h1'
          refine ⟨b0, joinPath d f :: ext, hc, ?_, fun p hp => ?_⟩
          · rw [← h1'] at h2
            simpa [List.append_assoc] using h2
          · rcases List.mem_cons.mp hp with hp | hp
            · exact ⟨f, List.mem_cons_self f fs, by simpa using hf, hp⟩
            · rcases h3 p hp with ⟨g, hg, hgh, hgp⟩
              exact ⟨g, List.mem_cons_of_mem f hg, hgh, hgp⟩
        · rw [if_neg hk] at h1'
          refine ⟨b0, ext, hc, ?_, fun p hp => ?_⟩
          · rw [← h1'] at h2
            exact h2
          · rcases h3 p hp with ⟨g, hg, hgh, hgp⟩
            exact ⟨g, List.mem_cons_of_mem f hg, hgh, hgp⟩
      · rw [if_neg hs] at h
        rcases ih _ _ _ h with ⟨b, ext, h1, h2, h3⟩
        refine ⟨b, ext, h1, h2, fun p hp => ?_⟩
        rcases h3 p hp with ⟨g, hg, hgh, hgp⟩
        exact ⟨g, List.mem_cons_of_mem f hg, hgh, hgp⟩

theorem foldl_invariant {α β : Type} (P : β → Prop) (op : β → α → β) :
    ∀ (l : List α) (b : β), P b → (∀ x a, a ∈ l → P x → P (op x a)) → P (l.foldl op b) := by
  intro l
  induction l with
  | nil => intro b hb _; exact hb
  | cons a as ih =>
    intro b hb hstep
    exact ih (op b a) (hstep b a (List.mem_cons_self a as) hb)
      (fun x a' ha' hx => hstep x a' (List.mem_cons_of_mem a ha') hx)

theorem crawlEntry_preserve_grow (fsplit : String → String) (af : String)
    (cards : Cards) (e : DirEntry) (k : String) (b : Bundle)
    (h : lookupCard cards k = some b) :
    ∃ ext, lookupCard (crawlEntry fsplit af cards e) k =
      some ⟨b.static, b.animated ++ ext⟩ := by
  unfold crawlEntry
  split
  · rcases crawlAnim_grow fsplit e.path (sortFiles e.files) cards k b h with ⟨ext, h1, _⟩
    exact ⟨ext, h1⟩
  · exact ⟨[], by simpa using crawlStatic_preserve e.path (sortFiles e.files) cards k b h⟩

theorem crawlEntry_lookup_src (fsplit : String → String) (af : String)
    (cards : Cards) (e : DirEntry) (k : String) (b' : Bundle)
    (h : lookupCard (crawlEntry fsplit af cards e) k = some b') :
    (∃ b ext, lookupCard cards k = some b ∧ b' = ⟨b.static, b.animated ++ ext⟩ ∧
      ∀ p ∈ ext, ∃ f, f ∈ e.files ∧ hidden f = false ∧ p = joinPath e.path f) ∨
    (∃ f, f ∈ e.files ∧ hidden f = false ∧ b' = ⟨some (joinPath e.path f), []⟩) := by
  unfold crawlEntry at h
  split at h
  · left
    rcases crawlAnim_lookup_src fsplit e.path (sortFiles e.files) cards k b' h with
      ⟨b, ext, h1, h2, h3⟩
    refine ⟨b, ext, h1, h2, fun p hp => ?_⟩
    rcases h3 p hp with ⟨g, hg, hgh, hgp⟩
    exact ⟨g, mem_sortFiles.mp hg, hgh, hgp⟩
  · rcases crawlStatic_lookup_src e.path (sortFiles e.files) cards k b' h with h1 | ⟨g, hg, hgh, _, hgb⟩
    · left
      exact ⟨b', [], h1, by simp, by simp⟩
    · right
      exact ⟨g, mem_sortFiles.mp hg, hgh, hgb⟩

theorem crawlAnim_frame_mem (fsplit : String → String) (d : String) (fs : List String) :
    ∀ cards k b, lookupCard cards k = some b →
      ∀ f, f ∈ fs → hidden f = false → fsplit (splitext f).1 = k →
        ∃ b', lookupCard (crawlAnim fsplit d cards fs) k = some b' ∧
          joinPath d f ∈ b'.animated ∧ b'.static = b.static := by
  induction fs with
  | nil =>
    intro cards k b _ f hf
    cases hf
  | cons g gs ih =>
    intro cards k b hc f hf hh hk
    simp only [crawlAnim]
    rcases List.mem_cons.mp hf with hfg | hftail
    · subst hfg
      rw [if_neg (by simp [hh]), hk, if_pos (by simp [hc])]
      have hstep : lookupCard (appendFrame cards k (joinPath d f)) k =
          some ⟨b.static, b.animated ++ [joinPath d f]⟩ := by
        rw [lookupCard_appendFrame, hc]
        simp
      rcases crawlAnim_grow fsplit d gs _ k _ hstep with ⟨ext, h1, _⟩
      refine ⟨_, h1, ?_, rfl⟩
      simp
    · have hstep : ∃ b2, lookupCard
          (if hidden g then cards
           else
             if (lookupCard cards (fsplit (splitext g).1)).isSome then
               appendFrame cards (fsplit (splitext g).1) (joinPath d g)
             else cards) k = some b2 ∧ b2.static = b.static ∧ b2.animated = b.animated ∨
          lookupCard
          (if hidden g then cards
           else
             if (lookupCard cards (fsplit (splitext g).1)).isSome then
               appendFrame cards (fsplit (splitext g).1) (joinPath d g)
             else cards) k = some b2 ∧ b2.static = b.static := by
        by_cases hg : hidden g
        · rw [if_pos hg]
          exact ⟨b, Or.inl ⟨hc, rfl, rfl⟩⟩
        · rw [if_neg hg]
          by_cases hs : (lookupCard cards (fsplit (splitext g).1)).isSome
          · rw [if_pos hs, lookupCard_appendFrame, hc]
            by_cases hkg : k = fsplit (splitext g).1
            · refine ⟨⟨b.static, b.animated ++ [joinPath d g]⟩, Or.inr ⟨?_, rfl⟩⟩
              simp [hkg]
            · exact ⟨b, Or.inl ⟨by simp [hkg], rfl, rfl⟩⟩
          · rw [if_neg hs]
            exact ⟨b, Or.inl ⟨hc, rfl, rfl⟩⟩
      rcases hstep with ⟨b2, ⟨h2, h2s, _⟩ | ⟨h2, h2s⟩⟩
      · rcases ih _ k b2 h2 f hftail hh hk with ⟨b', h1, hmem, hst⟩
        exact ⟨b', h1, hmem, hst.trans h2s⟩
      · rcases ih _ k b2 h2 f hftail hh hk with ⟨b', h1, hmem, hst⟩
        exact ⟨b', h1, hmem, hst.trans h2s⟩

/-! ## Claims about Discovery -/

/-- C6: crawling a directory with static files `A.png`, `B.png` and an
animation subfolder with frames `A_0002.png`, `A_0001.png` (listed out of
order, to exercise the sorted listing) yields exactly two bundles — `A`
with its static file and both frames in ascending lexicographic order,
and `B` with its static file and no frames — and each frame's bundle key
is the first segment of its extension-stripped name split on the
frame-splitting pattern. -/
theorem c6_concrete_crawl :
    crawler true
        [⟨"root", ["B.png", "A.png"]⟩, ⟨"root/anim", ["A_0002.png", "A_0001.png"]⟩]
        splitUnderscoreDigits "anim" =
      [("A", ⟨some "root/A.png", ["root/anim/A_0001.png", "root/anim/A_0002.png"]⟩),
       ("B", ⟨some "root/B.png", []⟩)] ∧
    splitUnderscoreDigits "A_0001" = "A" ∧ splitUnderscoreDigits "A_0002" = "A" := by
  decide

/-- C7: crawling a root directory that does not exist (`os.path.isdir`
false) returns the empty mapping for every conceivable walk; the crawler
is a total function, so nothing is raised. -/
theorem c7_missing_dir_empty (walk : List DirEntry) (fsplit : String → String)
    (af : String) : crawler false walk fsplit af = [] := rfl

/-- C9: every path recorded in any bundle of any crawl — the static path
and every animated frame — names a non-hidden file (its name does not
start with a dot) listed by some directory of the walk, so hidden files
are never included in a bundle. -/
theorem c9_no_hidden_files (isdir : Bool) (walk : List DirEntry)
    (fsplit : String → String) (af k : String) (b : Bundle)
    (h : lookupCard (crawler isdir walk fsplit af) k = some b) :
    (∀ p, b.static = some p → pathFromWalk walk p) ∧
    ∀ p ∈ b.animated, pathFromWalk walk p := by
  cases isdir with
  | false => simp [crawler, lookupCard] at h
  | true =>
    have hmain := foldl_invariant
      (fun cards => ∀ k' b', lookupCard cards k' = some b' →
        (∀ p, b'.static = some p → pathFromWalk walk p) ∧
        ∀ p ∈ b'.animated, pathFromWalk walk p)
      (crawlEntry fsplit af) walk []
      (by intro k' b' hb'; simp [lookupCard] at hb')
      (by
        intro cards e he hP k' b' hb'
        rcases crawlEntry_lookup_src fsplit af cards e k' b' hb' with
          ⟨b0, ext, hc, hbeq, hprov⟩ | ⟨f, hf, hfh, hbeq⟩
        · obtain ⟨hst, han⟩ := hP k' b0 hc
          subst hbeq
          refine ⟨fun p hp => hst p hp, fun p hp => ?_⟩
          rcases List.mem_append.mp hp with hp | hp
          · exact han p hp
          · rcases hprov p hp with ⟨f, hf, hfh, hfp⟩
            exact ⟨e, he, f, hf, hfh, hfp⟩
        · subst hbeq
          refine ⟨fun p hp => ?_, fun p hp => ?_⟩
          · cases hp
            exact ⟨e, he, f, hf, hfh, rfl⟩
          · cases hp)
    exact hmain k b (by simpa [crawler] using h)

/-- C9 witness: in a concrete crawl the frame path of bundle `A` indeed
stems from a non-hidden walk entry. -/
theorem c9_no_hidden_files_witness :
    pathFromWalk [⟨"root", [".DS_Store", "A.png"]⟩, ⟨"root/anim", ["A_0001.png"]⟩]
      "root/anim/A_0001.png" := by
  have h := c9_no_hidden_files true
    [⟨"root", [".DS_Store", "A.png"]⟩, ⟨"root/anim", ["A_0001.png"]⟩]
    splitUnderscoreDigits "anim" "A"
    ⟨some "root/A.png", ["root/anim/A_0001.png"]⟩ (by decide)
  exact h.2 "root/anim/A_0001.png" (by decide)

/-- C10: (a) every bundle in a crawl result has its static path set — no
animation-only bundle is ever produced, since animation directories never
create keys; (b) a directory step never overwrites the static path of an
existing bundle; (c) an animation-directory step leaves the key set
unchanged, so a frame whose key does not exist at the moment it is
visited is silently dropped. -/
theorem c10_crawler_invariants :
    (∀ (isdir : Bool) (walk : List DirEntry) (fsplit : String → String)
        (af k : String) (b : Bundle),
        lookupCard (crawler isdir walk fsplit af) k = some b →
          b.static.isSome = true) ∧
    (∀ (fsplit : String → String) (af : String) (cards : Cards) (e : DirEntry)
        (k : String) (b : Bundle),
        lookupCard cards k = some b →
          ∃ b', lookupCard (crawlEntry fsplit af cards e) k = some b' ∧
            b'.static = b.static) ∧
    (∀ (fsplit : String → String) (af : String) (cards : Cards) (e : DirEntry),
        basenameStr e.path = af →
          ∀ k, (lookupCard (crawlEntry fsplit af cards e) k).isSome =
            (lookupCard cards k).isSome) := by
  refine ⟨?_, ?_, ?_⟩
  · intro isdir walk fsplit af k b h
    cases isdir with
    | false => simp [crawler, lookupCard] at h
    | true =>
      have hmain := foldl_invariant
        (fun cards => ∀ k' b', lookupCard cards k' = some b' → b'.static.isSome = true)
        (crawlEntry fsplit af) walk []
        (by intro k' b' hb'; simp [lookupCard] at hb')
        (by
          intro cards e _ hP k' b' hb'
          rcases crawlEntry_lookup_src fsplit af cards e k' b' hb' with
            ⟨b0, ext, hc, hbeq, _⟩ | ⟨f, _, _, hbeq⟩
          · subst hbeq
            exact hP k' b0 hc
          · subst hbeq
            rfl)
      exact hmain k b (by simpa [crawler] using h)
  · intro fsplit af cards e k b h
    rcases crawlEntry_preserve_grow fsplit af cards e k b h with ⟨ext, h1⟩
    exact ⟨_, h1, rfl⟩
  · intro fsplit af cards e hbase k
    unfold crawlEntry
    rw [if_pos hbase]
    cases hx : lookupCard cards k with
    | some b =>
      rcases crawlAnim_grow fsplit e.path (sortFiles e.files) cards k b hx with ⟨ext, h1, _⟩
      rw [h1]
      rfl
    | none =>
      cases hy : lookupCard (crawlAnim fsplit e.path cards (sortFiles e.files)) k with
      | some b' =>
        rcases crawlAnim_lookup_src fsplit e.path (sortFiles e.files) cards k b' hy with
          ⟨b0, ext, hc, _, _⟩
        rw [hx] at hc
        cases hc
      | none => rfl

/-- C10 witness: the invariants applied at concrete inputs — a crawl whose
bundle has a static path, a static path surviving an animation step that
appends a frame, and an animation directory that creates no key. -/
theorem c10_crawler_invariants_witness :
    (Bundle.static ⟨some "root/A.png", []⟩).isSome = true ∧
    (∃ b', lookupCard
        (crawlEntry splitUnderscoreDigits "anim"
          [("A", ⟨some "s.png", []⟩)] ⟨"root/anim", ["A_0001.png"]⟩) "A" = some b' ∧
      b'.static = (Bundle.mk (some "s.png") []).static) ∧
    (lookupCard (crawlEntry splitUnderscoreDigits "anim" []
        ⟨"root/anim", ["A_0001.png"]⟩) "A").isSome =
      (lookupCard ([] : Cards) "A").isSome := by
  refine ⟨?_, ?_, ?_⟩
  · exact c10_crawler_invariants.1 true [⟨"root", ["A.png"]⟩] splitUnderscoreDigits
      "anim" "A" ⟨some "root/A.png", []⟩ (by decide)
  · exact c10_crawler_invariants.2.1 splitUnderscoreDigits "anim"
      [("A", ⟨some "s.png", []⟩)] ⟨"root/anim", ["A_0001.png"]⟩ "A"
      ⟨some "s.png", []⟩ (by decide)
  · exact c10_crawler_invariants.2.2 splitUnderscoreDigits "anim" []
      ⟨"root/anim", ["A_0001.png"]⟩ (by decide) "A"

/-- C3 counterexample: merging depends on the order in which the walk
visits the subdirectories — with the animation directory visited first the
frame is silently dropped (bundle `A` has no frames), while the reverse
order merges it. -/
theorem c3_order_counterexample :
    lookupCard
        (crawler true [⟨"root/anim", ["A_0001.png"]⟩, ⟨"root", ["A.png"]⟩]
          splitUnderscoreDigits "anim") "A" =
      some ⟨some "root/A.png", []⟩ ∧
    lookupCard
        (crawler true [⟨"root", ["A.png"]⟩, ⟨"root/anim", ["A_0001.png"]⟩]
          splitUnderscoreDigits "anim") "A" =
      some ⟨some "root/A.png", ["root/anim/A_0001.png"]⟩ := by
  decide

/-- C3 (amended): bundle keys are global across the whole walk — whenever
an earlier-visited directory (wherever it sits in the tree) has already
created the bundle key, a non-hidden frame in a later-visited animation
directory merges into that same bundle, the bundle's static path is
untouched, and the merged frame survives to the end of the walk; a frame
visited before its key exists is dropped (see the counterexample). -/
theorem c3_global_keys_amended (fsplit : String → String) (af : String)
    (pre : List DirEntry) (e : DirEntry) (rest : List DirEntry)
    (f k : String) (b : Bundle)
    (hbase : basenameStr e.path = af) (hf : f ∈ e.files) (hh : hidden f = false)
    (hk : fsplit (splitext f).1 = k)
    (hpre : lookupCard (List.foldl (crawlEntry fsplit af) [] pre) k = some b) :
    ∃ b', lookupCard (crawler true (pre ++ e :: rest) fsplit af) k = some b' ∧
      joinPath e.path f ∈ b'.animated ∧ b'.static = b.static := by
  have hwalk : crawler true (pre ++ e :: rest) fsplit af =
      rest.foldl (crawlEntry fsplit af)
        (crawlEntry fsplit af (pre.foldl (crawlEntry fsplit af) []) e) := by
    simp [crawler, List.foldl_append]
  have hstep : ∃ b1, lookupCard
      (crawlEntry fsplit af (pre.foldl (crawlEntry fsplit af) []) e) k = some b1 ∧
      joinPath e.path f ∈ b1.animated ∧ b1.static = b.static := by
    unfold crawlEntry
    rw [if_pos hbase]
    exact crawlAnim_frame_mem fsplit e.path (sortFiles e.files) _ k b hpre f
      (mem_sortFiles.mpr hf) hh hk
  rcases hstep with ⟨b1, h1, hmem, hst⟩
  have hpersist := foldl_invariant
    (fun cards => ∃ b', lookupCard cards k = some b' ∧
      joinPath e.path f ∈ b'.animated ∧ b'.static = b.static)
    (crawlEntry fsplit af) rest _ ⟨b1, h1, hmem, hst⟩
    (by
      intro cards e' _ hP
      rcases hP with ⟨b', hb', hmem', hst'⟩
      rcases crawlEntry_preserve_grow fsplit af cards e' k b' hb' with ⟨ext, h2⟩
      exact ⟨_, h2, List.mem_append_left _ hmem', hst'⟩)
  rw [hwalk]
  exact hpersist

/-- C3 witness: the amended statement at a concrete walk — static first,
frames second — merging the frame into bundle `A`. -/
theorem c3_global_keys_witness :
    ∃ b', lookupCard
        (crawler true
          ([⟨"root", ["A.png"]⟩] ++ DirEntry.mk "root/anim" ["A_0001.png"] :: [])
          splitUnderscoreDigits "anim") "A" = some b' ∧
      joinPath "root/anim" "A_0001.png" ∈ b'.animated ∧
      b'.static = (Bundle.mk (some "root/A.png") []).static :=
  c3_global_keys_amended splitUnderscoreDigits "anim" [⟨"root", ["A.png"]⟩]
    ⟨"root/anim", ["A_0001.png"]⟩ [] "A_0001.png" "A" ⟨some "root/A.png", []⟩
    (by decide) (by decide) (by decide) (by decide) (by decide)

/-! ## Stage lemma toolkit -/

theorem stageSpec_check {β : Type} (k : ErrKind) (cmd : String) (r : RunResult) (v : β) :
    stageSpec (if r.return_code ≠ 0
      then some (Except.error ⟨k, cmd, r.return_code, r.stdout, r.stderr⟩)
      else some (Except.ok v)) k cmd r v := by
  constructor
  · intro h0
    rw [if_neg (by simp [h0])]
  · intro e
    by_cases h : r.return_code = 0
    · rw [if_neg (by simp [h])]
      constructor
      · intro he
        cases he
      · rintro ⟨hne, _⟩
        exact absurd h hne
    · rw [if_pos h]
      constructor
      · intro he
        simp only [Option.some.injEq] at he
        injection he with h2
        exact ⟨h, h2.symm⟩
      · rintro ⟨_, rfl⟩
        rfl

theorem make_medium_copy_spec (runCmd : String → RunResult) (info : CardInfo)
    (i o : String) (h : get_input_output info "medium" = some (i, o)) :
    stageSpec (make_medium_copy runCmd info) .mediumCopy (make_medium_copy_cmd i o)
      (runCmd (make_medium_copy_cmd i o)) (runCmd (make_medium_copy_cmd i o)) := by
  have hdef : make_medium_copy runCmd info =
      (if (runCmd (make_medium_copy_cmd i o)).return_code ≠ 0
       then some (Except.error ⟨.mediumCopy, make_medium_copy_cmd i o,
         (runCmd (make_medium_copy_cmd i o)).return_code,
         (runCmd (make_medium_copy_cmd i o)).stdout,
         (runCmd (make_medium_copy_cmd i o)).stderr⟩)
       else some (Except.ok (runCmd (make_medium_copy_cmd i o)))) := by
    simp only [make_medium_copy, h]
  rw [hdef]
  exact stageSpec_check _ _ _ _

theorem make_small_copy_spec (runCmd : String → RunResult) (info : CardInfo)
    (i o : String) (h : get_input_output info "small" = some (i, o)) :
    stageSpec (make_small_copy runCmd info) .smallCopy (make_small_copy_cmd i o)
      (runCmd (make_small_copy_cmd i o)) (runCmd (make_small_copy_cmd i o)) := by
  have hdef : make_small_copy runCmd info =
      (if (runCmd (make_small_copy_cmd i o)).return_code ≠ 0
       then some (Except.error ⟨.smallCopy, make_small_copy_cmd i o,
         (runCmd (make_small_copy_cmd i o)).return_code,
         (runCmd (make_small_copy_cmd i o)).stdout,
         (runCmd (make_small_copy_cmd i o)).stderr⟩)
       else some (Except.ok (runCmd (make_small_copy_cmd i o)))) := by
    simp only [make_small_copy, h]
  rw [hdef]
  exact stageSpec_check _ _ _ _

theorem make_jpg_copy_spec (runCmd : String → RunResult) (info : CardInfo)
    (i o : String) (h : get_input_output info "mediumj" = some (i, o)) :
    stageSpec (make_jpg_copy runCmd info) .jpgCopy
      (make_jpg_copy_cmd i ((splitext o).1 ++ ".jpg"))
      (runCmd (make_jpg_copy_cmd i ((splitext o).1 ++ ".jpg")))
      (runCmd (make_jpg_copy_cmd i ((splitext o).1 ++ ".jpg"))) := by
  have hdef : make_jpg_copy runCmd info =
      (if (runCmd (make_jpg_copy_cmd i ((splitext o).1 ++ ".jpg"))).return_code ≠ 0
       then some (Except.error ⟨.jpgCopy, make_jpg_copy_cmd i ((splitext o).1 ++ ".jpg"),
         (runCmd (make_jpg_copy_cmd i ((splitext o).1 ++ ".jpg"))).return_code,
         (runCmd (make_jpg_copy_cmd i ((splitext o).1 ++ ".jpg"))).stdout,
         (runCmd (make_jpg_copy_cmd i ((splitext o).1 ++ ".jpg"))).stderr⟩)
       else some (Except.ok (runCmd (make_jpg_copy_cmd i ((splitext o).1 ++ ".jpg"))))) := by
    simp only [make_jpg_copy, h]
  rw [hdef]
  exact stageSpec_check _ _ _ _

theorem make_small_icons_spec (runCmd : String → RunResult) (info : CardInfo)
    (i o : String) (h : get_input_output info "icons/small" = some (i, o)) :
    stageSpec (make_small_icons runCmd info) .smallIcon (make_small_icons_cmd i o)
      (runCmd (make_small_icons_cmd i o)) (runCmd (make_small_icons_cmd i o)) := by
  have hdef : make_small_icons runCmd info =
      (if (runCmd (make_small_icons_cmd i o)).return_code ≠ 0
       then some (Except.error ⟨.smallIcon, make_small_icons_cmd i o,
         (runCmd (make_small_icons_cmd i o)).return_code,
         (runCmd (make_small_icons_cmd i o)).stdout,
         (runCmd (make_small_icons_cmd i o)).stderr⟩)
       else some (Except.ok (runCmd (make_small_icons_cmd i o)))) := by
    simp only [make_small_icons, h]
  rw [hdef]
  exact stageSpec_check _ _ _ _

theorem make_medium_icons_spec (runCmd : String → RunResult) (info : CardInfo)
    (i o : String) (h : get_input_output info "icons/medium" = some (i, o)) :
    stageSpec (make_medium_icons runCmd info) .mediumIcon (make_medium_icons_cmd i o)
      (runCmd (make_medium_icons_cmd i o)) (runCmd (make_medium_icons_cmd i o)) := by
  have hdef : make_medium_icons runCmd info =
      (if (runCmd (make_medium_icons_cmd i o)).return_code ≠ 0
       then some (Except.error ⟨.mediumIcon, make_medium_icons_cmd i o,
         (runCmd (make_medium_icons_cmd i o)).return_code,
         (runCmd (make_medium_icons_cmd i o)).stdout,
         (runCmd (make_medium_icons_cmd i o)).stderr⟩)
       else some (Except.ok (runCmd (make_medium_icons_cmd i o)))) := by
    simp only [make_medium_icons, h]
  rw [hdef]
  exact stageSpec_check _ _ _ _

theorem make_large_icons_spec (runCmd : String → RunResult) (info : CardInfo)
    (i o : String) (h : get_input_output info "icons/large" = some (i, o)) :
    stageSpec (make_large_icons runCmd info) .largeIcon (make_large_icons_cmd i o)
      (runCmd (make_large_icons_cmd i o)) (runCmd (make_large_icons_cmd i o)) := by
  have hdef : make_large_icons runCmd info =
      (if (runCmd (make_large_icons_cmd i o)).return_code ≠ 0
       then some (Except.error ⟨.largeIcon, make_large_icons_cmd i o,
         (runCmd (make_large_icons_cmd i o)).return_code,
         (runCmd (make_large_icons_cmd i o)).stdout,
         (runCmd (make_large_icons_cmd i o)).stderr⟩)
       else some (Except.ok (runCmd (make_large_icons_cmd i o)))) := by
    simp only [make_large_icons, h]
  rw [hdef]
  exact stageSpec_check _ _ _ _

theorem make_animated_png_spec (runCmd : String → RunResult) (info : CardInfo)
    (i o : String) (hne : info.animated ≠ [])
    (h : get_input_output info "animated" = some (i, o)) :
    stageSpec (make_animated_png runCmd info) .animatedPNG (make_animated_png_cmd info o)
      (runCmd (make_animated_png_cmd info o))
      (some (runCmd (make_animated_png_cmd info o))) := by
  have hdef : make_animated_png runCmd info =
      (if (runCmd (make_animated_png_cmd info o)).return_code ≠ 0
       then some (Except.error ⟨.animatedPNG, make_animated_png_cmd info o,
         (runCmd (make_animated_png_cmd info o)).return_code,
         (runCmd (make_animated_png_cmd info o)).stdout,
         (runCmd (make_animated_png_cmd info o)).stderr⟩)
       else some (Except.ok (some (runCmd (make_animated_png_cmd info o))))) := by
    simp only [make_animated_png, if_pos hne, h]
  rw [hdef]
  exact stageSpec_check _ _ _ _

theorem make_animated_gif_spec (runCmd : String → RunResult) (info : CardInfo)
    (i o : String) (h : get_input_output info "animated" = some (i, o)) :
    stageSpec (make_animated_gif runCmd info) .animatedGIF
      (make_animated_gif_cmd o ((splitext o).1 ++ ".gif"))
      (runCmd (make_animated_gif_cmd o ((splitext o).1 ++ ".gif")))
      (runCmd (make_animated_gif_cmd o ((splitext o).1 ++ ".gif")), [o]) := by
  have hdef : make_animated_gif runCmd info =
      (if (runCmd (make_animated_gif_cmd o ((splitext o).1 ++ ".gif"))).return_code ≠ 0
       then some (Except.error ⟨.animatedGIF, make_animated_gif_cmd o ((splitext o).1 ++ ".gif"),
         (runCmd (make_animated_gif_cmd o ((splitext o).1 ++ ".gif"))).return_code,
         (runCmd (make_animated_gif_cmd o ((splitext o).1 ++ ".gif"))).stdout,
         (runCmd (make_animated_gif_cmd o ((splitext o).1 ++ ".gif"))).stderr⟩)
       else some (Except.ok (runCmd (make_animated_gif_cmd o ((splitext o).1 ++ ".gif")), [o]))) := by
    simp only [make_animated_gif, h]
  rw [hdef]
  exact stageSpec_check _ _ _ _

theorem make_mp4_spec (runCmd : String → RunResult) (reSub : String → String → String)
    (info : CardInfo) (i o : String) (h : web_format_prep reSub info "mp4" = some (i, o)) :
    stageSpec (make_mp4 runCmd reSub info) .mp4 (make_mp4_cmd i o)
      (runCmd (make_mp4_cmd i o)) (runCmd (make_mp4_cmd i o)) := by
  have hdef : make_mp4 runCmd reSub info =
      (if (runCmd (make_mp4_cmd i o)).return_code ≠ 0
       then some (Except.error ⟨.mp4, make_mp4_cmd i o,
         (runCmd (make_mp4_cmd i o)).return_code,
         (runCmd (make_mp4_cmd i o)).stdout,
         (runCmd (make_mp4_cmd i o)).stderr⟩)
       else some (Except.ok (runCmd (make_mp4_cmd i o)))) := by
    simp only [make_mp4, h]
  rw [hdef]
  exact stageSpec_check _ _ _ _

theorem make_webm_spec (runCmd : String → RunResult) (reSub : String → String → String)
    (info : CardInfo) (i o : String) (h : web_format_prep reSub info "webm" = some (i, o)) :
    stageSpec (make_webm runCmd reSub info) .webm (make_webm_cmd i o)
      (runCmd (make_webm_cmd i o)) (runCmd (make_webm_cmd i o)) := by
  have hdef : make_webm runCmd reSub info =
      (if (runCmd (make_webm_cmd i o)).return_code ≠ 0
       then some (Except.error ⟨.webm, make_webm_cmd i o,
         (runCmd (make_webm_cmd i o)).return_code,
         (runCmd (make_webm_cmd i o)).stdout,
         (runCmd (make_webm_cmd i o)).stderr⟩)
       else some (Except.ok (runCmd (make_webm_cmd i o)))) := by
    simp only [make_webm, h]
  rw [hdef]
  exact stageSpec_check _ _ _ _

/-! ## Claims about the pipeline stages -/

/-- C2: every tool-invoking stage — medium copy, small copy, jpg copy,
small/medium/large icon, animated container (apngasm), animated loop
(apng2gif), mp4 and webm — raises its stage-specific error precisely when
the tool's exit status is non-zero, the error carrying the exact command
string, the exit code and the captured stdout and stderr; on zero exit
the stage returns normally (see `stageSpec`). -/
theorem c2_tool_stage_errors (runCmd : String → RunResult)
    (reSub : String → String → String) (info : CardInfo) :
    (∀ i o, get_input_output info "medium" = some (i, o) →
      stageSpec (make_medium_copy runCmd info) .mediumCopy (make_medium_copy_cmd i o)
        (runCmd (make_medium_copy_cmd i o)) (runCmd (make_medium_copy_cmd i o))) ∧
    (∀ i o, get_input_output info "small" = some (i, o) →
      stageSpec (make_small_copy runCmd info) .smallCopy (make_small_copy_cmd i o)
        (runCmd (make_small_copy_cmd i o)) (runCmd (make_small_copy_cmd i o))) ∧
    (∀ i o, get_input_output info "mediumj" = some (i, o) →
      stageSpec (make_jpg_copy runCmd info) .jpgCopy
        (make_jpg_copy_cmd i ((splitext o).1 ++ ".jpg"))
        (runCmd (make_jpg_copy_cmd i ((splitext o).1 ++ ".jpg")))
        (runCmd (make_jpg_copy_cmd i ((splitext o).1 ++ ".jpg")))) ∧
    (∀ i o, get_input_output info "icons/small" = some (i, o) →
      stageSpec (make_small_icons runCmd info) .smallIcon (make_small_icons_cmd i o)
        (runCmd (make_small_icons_cmd i o)) (runCmd (make_small_icons_cmd i o))) ∧
    (∀ i o, get_input_output info "icons/medium" = some (i, o) →
      stageSpec (make_medium_icons runCmd info) .mediumIcon (make_medium_icons_cmd i o)
        (runCmd (make_medium_icons_cmd i o)) (runCmd (make_medium_icons_cmd i o))) ∧
    (∀ i o, get_input_output info "icons/large" = some (i, o) →
      stageSpec (make_large_icons runCmd info) .largeIcon (make_large_icons_cmd i o)
        (runCmd (make_large_icons_cmd i o)) (runCmd (make_large_icons_cmd i o))) ∧
    (∀ i o, info.animated ≠ [] → get_input_output info "animated" = some (i, o) →
      stageSpec (make_animated_png runCmd info) .animatedPNG (make_animated_png_cmd info o)
        (runCmd (make_animated_png_cmd info o))
        (some (runCmd (make_animated_png_cmd info o)))) ∧
    (∀ i o, get_input_output info "animated" = some (i, o) →
      stageSpec (make_animated_gif runCmd info) .animatedGIF
        (make_animated_gif_cmd o ((splitext o).1 ++ ".gif"))
        (runCmd (make_animated_gif_cmd o ((splitext o).1 ++ ".gif")))
        (runCmd (make_animated_gif_cmd o ((splitext o).1 ++ ".gif")), [o])) ∧
    (∀ i o, web_format_prep reSub info "mp4" = some (i, o) →
      stageSpec (make_mp4 runCmd reSub info) .mp4 (make_mp4_cmd i o)
        (runCmd (make_mp4_cmd i o)) (runCmd (make_mp4_cmd i o))) ∧
    (∀ i o, web_format_prep reSub info "webm" = some (i, o) →
      stageSpec (make_webm runCmd reSub info) .webm (make_webm_cmd i o)
        (runCmd (make_webm_cmd i o)) (runCmd (make_webm_cmd i o))) := by
  refine ⟨?_, ?_, ?_, ?_, ?_, ?_, ?_, ?_, ?_, ?_⟩
  · exact fun i o h => make_medium_copy_spec runCmd info i o h
  · exact fun i o h => make_small_copy_spec runCmd info i o h
  · exact fun i o h => make_jpg_copy_spec runCmd info i o h
  · exact fun i o h => make_small_icons_spec runCmd info i o h
  · exact fun i o h => make_medium_icons_spec runCmd info i o h
  · exact fun i o h => make_large_icons_spec runCmd info i o h
  · exact fun i o hne h => make_animated_png_spec runCmd info i o hne h
  · exact fun i o h => make_animated_gif_spec runCmd info i o h
  · exact fun i o h => make_mp4_spec runCmd reSub info i o h
  · exact fun i o h => make_webm_spec runCmd reSub info i o h

/-- C2 witness: with a failing tool oracle, the medium-copy stage yields
exactly the medium-copy error carrying the command, the exit code 1 and
the captured output. -/
theorem c2_tool_stage_errors_witness :
    make_medium_copy runCmdFail infoW =
      some (Except.error ⟨.mediumCopy,
        "convert in/A.png -filter lanczos -resize 200x303 -unsharp 1.5x1+0.7+0.02 out/medium/A.png",
        1, "sout", "serr"⟩) := by
  have h := (c2_tool_stage_errors runCmdFail subUnderscoreDigits infoW).1
    "in/A.png" "out/medium/A.png" (by decide)
  exact (h.2 _).mpr ⟨by decide, by decide⟩

/-- C5: every static-variant command uses filter lanczos and the unsharp
recipe `1.5x1+0.7+0.02` at its fixed geometry (medium 200x303, small
123x186, icons 11x16 / 30x44 / 40x60); the jpg command additionally
flattens on background `#242424`, resizes to 200x303, south-gravity crops
to 200x302, re-encodes at quality 85%, and the jpg stage forces the
output extension to `.jpg` whatever the source extension was. -/
theorem c5_static_variant_commands (runCmd : String → RunResult) (info : CardInfo) :
    (∀ input_ output : String,
      make_medium_copy_cmd input_ output =
        "convert " ++ input_ ++ " -filter lanczos -resize 200x303 -unsharp 1.5x1+0.7+0.02 " ++ output ∧
      make_small_copy_cmd input_ output =
        "convert " ++ input_ ++ " -filter lanczos -resize 123x186 -unsharp 1.5x1+0.7+0.02 " ++ output ∧
      make_small_icons_cmd input_ output =
        "convert " ++ input_ ++ " -filter lanczos -resize 11x16 -unsharp 1.5x1+0.7+0.02 " ++ output ∧
      make_medium_icons_cmd input_ output =
        "convert " ++ input_ ++ " -filter lanczos -resize 30x44 -unsharp 1.5x1+0.7+0.02 " ++ output ∧
      make_large_icons_cmd input_ output =
        "convert " ++ input_ ++ " -filter lanczos -resize 40x60 -unsharp 1.5x1+0.7+0.02 " ++ output ∧
      make_jpg_copy_cmd input_ output =
        "convert " ++ input_ ++
          " -background \"#242424\" -layers flatten -filter lanczos -resize 200x303 +repage -gravity south -crop 200x302+0+0 +repage -unsharp 1.5x1+0.7+0.02 -quality 85% " ++
          output) ∧
    (∀ i o, get_input_output info "mediumj" = some (i, o) →
      make_jpg_copy runCmd info =
        (if (runCmd (make_jpg_copy_cmd i ((splitext o).1 ++ ".jpg"))).return_code ≠ 0
         then some (Except.error ⟨.jpgCopy, make_jpg_copy_cmd i ((splitext o).1 ++ ".jpg"),
           (runCmd (make_jpg_copy_cmd i ((splitext o).1 ++ ".jpg"))).return_code,
           (runCmd (make_jpg_copy_cmd i ((splitext o).1 ++ ".jpg"))).stdout,
           (runCmd (make_jpg_copy_cmd i ((splitext o).1 ++ ".jpg"))).stderr⟩)
         else some (Except.ok (runCmd (make_jpg_copy_cmd i ((splitext o).1 ++ ".jpg")))))) ∧
    (splitext "dir/A.png").1 ++ ".jpg" = "dir/A.jpg" ∧
    (splitext "dir/A.tga").1 ++ ".jpg" = "dir/A.jpg" := by
  refine ⟨fun input_ output => ⟨rfl, rfl, rfl, rfl, rfl, rfl⟩, ?_, by decide, by decide⟩
  intro i o h
  simp only [make_jpg_copy, h]

/-- C5 witness: the jpg stage at a concrete card with a failing tool — the
output operand of the built command has its `.png` swapped for `.jpg`. -/
theorem c5_static_variant_commands_witness :
    make_jpg_copy runCmdFail infoW =
      some (Except.error ⟨.jpgCopy, make_jpg_copy_cmd "in/A.png" "out/mediumj/A.jpg",
        1, "sout", "serr"⟩) := by
  have h := (c5_static_variant_commands runCmdFail infoW).2.1
    "in/A.png" "out/mediumj/A.png" (by decide)
  rw [h]
  rfl

/-- C8: the animated-loop stage converts the assembled animated-png
container (the `animated` output path) into a `.gif`; on zero exit it
returns normally with exactly the container file removed afterward, and
on non-zero exit it raises the animated-gif error with no removal having
taken place, leaving the container file on disk. -/
theorem c8_gif_removes_container (runCmd : String → RunResult) (info : CardInfo)
    (i0 o0 : String) (h : get_input_output info "animated" = some (i0, o0)) :
    ((runCmd (make_animated_gif_cmd o0 ((splitext o0).1 ++ ".gif"))).return_code = 0 →
      make_animated_gif runCmd info =
        some (Except.ok (runCmd (make_animated_gif_cmd o0 ((splitext o0).1 ++ ".gif")), [o0]))) ∧
    ((runCmd (make_animated_gif_cmd o0 ((splitext o0).1 ++ ".gif"))).return_code ≠ 0 →
      make_animated_gif runCmd info =
        some (Except.error ⟨.animatedGIF, make_animated_gif_cmd o0 ((splitext o0).1 ++ ".gif"),
          (runCmd (make_animated_gif_cmd o0 ((splitext o0).1 ++ ".gif"))).return_code,
          (runCmd (make_animated_gif_cmd o0 ((splitext o0).1 ++ ".gif"))).stdout,
          (runCmd (make_animated_gif_cmd o0 ((splitext o0).1 ++ ".gif"))).stderr⟩)) := by
  have hdef : make_animated_gif runCmd info =
      (if (runCmd (make_animated_gif_cmd o0 ((splitext o0).1 ++ ".gif"))).return_code ≠ 0
       then some (Except.error ⟨.animatedGIF, make_animated_gif_cmd o0 ((splitext o0).1 ++ ".gif"),
         (runCmd (make_animated_gif_cmd o0 ((splitext o0).1 ++ ".gif"))).return_code,
         (runCmd (make_animated_gif_cmd o0 ((splitext o0).1 ++ ".gif"))).stdout,
         (runCmd (make_animated_gif_cmd o0 ((splitext o0).1 ++ ".gif"))).stderr⟩)
       else some (Except.ok (runCmd (make_animated_gif_cmd o0 ((splitext o0).1 ++ ".gif")), [o0]))) := by
    simp only [make_animated_gif, h]
  rw [hdef]
  constructor
  · intro h0
    rw [if_neg (by simp [h0])]
  · intro hne
    rw [if_pos hne]

/-- C8 witness: with a succeeding converter the stage returns normally and
removes exactly the intermediate container `out/animated/A.png`. -/
theorem c8_gif_removes_container_witness :
    make_animated_gif runCmdOk infoW =
      some (Except.ok (⟨0, "", ""⟩, ["out/animated/A.png"])) := by
  have h := (c8_gif_removes_container runCmdOk infoW "in/A.png" "out/animated/A.png"
    (by decide)).1 (by decide)
  exact h

/-- C4: the web-encode input pattern is re-derived from the first original
per-frame filename — the frame-splitting pattern substituted by the
printf-style placeholder `_%04d` in its extension-stripped name — not
from the assembled animated container; both encodes run at `-framerate
11`, the mp4 with `-profile:v baseline -level 3.0 -pix_fmt yuv420p`, the
webm with default settings, and each output path is the `animated` output
path with its extension swapped to the target format. -/
theorem c4_web_encode_derivation (reSub : String → String → String) (info : CardInfo)
    (f0 : String) (frames : List String) (i o : String)
    (hff : ff_out_is_original_frames info)
    (hanim : info.animated = f0 :: frames)
    (h : get_input_output info "animated" = some (i, o)) :
    web_format_prep reSub info "mp4" =
      some (reSub "_%04d" (splitext f0).1 ++ (splitext f0).2,
        (splitext o).1 ++ "." ++ "mp4") ∧
    web_format_prep reSub info "webm" =
      some (reSub "_%04d" (splitext f0).1 ++ (splitext f0).2,
        (splitext o).1 ++ "." ++ "webm") ∧
    (∀ input_ output : String,
      make_mp4_cmd input_ output =
        "ffmpeg -f image2 -framerate 11 -i " ++ input_ ++
          " -profile:v baseline -level 3.0 -pix_fmt yuv420p " ++ output ∧
      make_webm_cmd input_ output =
        "ffmpeg -f image2 -framerate 11 -i " ++ input_ ++ "  " ++ output) ∧
    subUnderscoreDigits "_%04d" "A_0001" = "A_%04d" := by
  have hffa : info.ff_out = f0 :: frames := by
    rw [ff_out_is_original_frames] at hff
    rw [hff, hanim]
  refine ⟨?_, ?_, fun input_ output => ⟨rfl, rfl⟩, by decide⟩
  · simp only [web_format_prep, hffa, h]
  · simp only [web_format_prep, hffa, h]

/-- C4 witness: the derivation at a concrete card — the frame file
`in/anim/A_0001.png` becomes the pattern `in/anim/A_%04d.png` and the
mp4 output path is the container path with extension `.mp4`. -/
theorem c4_web_encode_derivation_witness :
    web_format_prep subUnderscoreDigits infoW "mp4" =
      some ("in/anim/A_%04d.png", "out/animated/A.mp4") := by
  have h := (c4_web_encode_derivation subUnderscoreDigits infoW
    "in/anim/A_0001.png" [] "in/A.png" "out/animated/A.png"
    rfl rfl (by decide)).1
  exact h.trans (by decide)

/-! ## Dispatcher lemmas and claim C1 -/

theorem poolGetAll_all_ok (rs : List (Except CardConvertError String))
    (h : ∀ r ∈ rs, ∃ s, r = Except.ok s) :
    ∃ l, poolGetAll rs = Except.ok l ∧
      List.Forall₂ (fun r s => r = Except.ok s) rs l := by
  induction rs with
  | nil => exact ⟨[], rfl, List.Forall₂.nil⟩
  | cons a as ih =>
    obtain ⟨s, hs⟩ := h a (List.mem_cons_self a as)
    obtain ⟨l, hl, hfa⟩ := ih (fun r hr => h r (List.mem_cons_of_mem a hr))
    subst hs
    refine ⟨s :: l, ?_, List.Forall₂.cons rfl hfa⟩
    simp only [poolGetAll, hl]

theorem poolGetAll_first_error (pre : List (Except CardConvertError String))
    (x : Except CardConvertError String) (post : List (Except CardConvertError String))
    (e : CardConvertError) (hpre : ∀ j ∈ pre, ∃ s, j = Except.ok s)
    (hx : x = Except.error e) :
    poolGetAll (pre ++ x :: post) = Except.error e := by
  induction pre with
  | nil =>
    subst hx
    simp [poolGetAll]
  | cons a as ih =>
    obtain ⟨s, hs⟩ := hpre a (List.mem_cons_self a as)
    subst hs
    have htail := ih (fun j hj => hpre j (List.mem_cons_of_mem _ hj))
    simp only [List.cons_append, poolGetAll]
    rw [show poolGetAll (as.append (x :: post)) = Except.error e from htail]

/-- C1 counterexample: dispatching three cards where `card1` fails (the
other two succeed) makes `execute_pool` re-raise `card1`'s typed stage
error at collection time — `p.get()` re-raises a captured worker
exception — instead of returning a three-entry result sequence with the
error at index 1. -/
theorem c1_pool_counterexample :
    procCex "card0" = Except.ok "Finished processing card0" ∧
    procCex "card1" = Except.error errCex ∧
    procCex "card2" = Except.ok "Finished processing card2" ∧
    execute_pool procCex ["card0", "card1", "card2"] = Except.error errCex :=
  ⟨rfl, rfl, rfl, rfl⟩

/-- C1 (amended): `execute_pool` submits one unit per Card and collects
the futures in submission order; when every Card's pipeline succeeds it
returns exactly one success message per Card, in submission order, but
when some Card's pipeline raises a typed stage error, the first such
error (in submission order) is re-raised out of `execute_pool` at
collection time, so no result sequence is returned — even though every
submitted unit still ran in the pool. -/
theorem c1_execute_pool_amended {α : Type}
    (process : α → Except CardConvertError String) (instances : List α) :
    ((∀ inst ∈ instances, ∃ s, process inst = Except.ok s) →
      ∃ l, execute_pool process instances = Except.ok l ∧
        List.Forall₂ (fun inst s => process inst = Except.ok s) instances l) ∧
    (∀ (pre : List α) (x : α) (post : List α) (e : CardConvertError),
      instances = pre ++ x :: post →
      (∀ j ∈ pre, ∃ s, process j = Except.ok s) →
      process x = Except.error e →
      execute_pool process instances = Except.error e) := by
  constructor
  · intro hall
    obtain ⟨l, hl, hfa⟩ := poolGetAll_all_ok (instances.map process)
      (by
        intro r hr
        rcases List.mem_map.mp hr with ⟨inst, hi, rfl⟩
        exact hall inst hi)
    exact ⟨l, hl, List.forall₂_map_left_iff.mp hfa⟩
  · intro pre x post e hinst hpre hx
    subst hinst
    have hmap : (pre ++ x :: post).map process =
        pre.map process ++ process x :: post.map process := by
      simp
    simp only [execute_pool, hmap]
    exact poolGetAll_first_error _ _ _ _
      (by
        intro j hj
        rcases List.mem_map.mp hj with ⟨inst, hi, rfl⟩
        exact hpre inst hi)
      hx

/-- C1 witness: the amended behaviour at concrete inputs — an all-success
batch returns its two messages in order, and the failing batch re-raises
the error of `card1`. -/
theorem c1_execute_pool_amended_witness :
    (∃ l, execute_pool procOkW ["a", "b"] = Except.ok l ∧
      List.Forall₂ (fun inst s => procOkW inst = Except.ok s) ["a", "b"] l) ∧
    execute_pool procCex ["card0", "card1", "card2"] = Except.error errCex := by
  constructor
  · exact (c1_execute_pool_amended procOkW ["a", "b"]).1
      (fun inst _ => ⟨"Finished processing " ++ inst, rfl⟩)
  · refine (c1_execute_pool_amended procCex ["card0", "card1", "card2"]).2
      ["card0"] "card1" ["card2"] errCex rfl ?_ rfl
    intro j hj
    have hj0 : j = "card0" := by simpa using hj
    subst hj0
    exact ⟨"Finished processing card0", rfl⟩

end CardConvert
